import Mathlib

/-!
Verification of the practice-scheduler core of help-me-learn
(src/learn.py and src/api.py), as a shallow embedding in Lean.

Python floats are modelled as exact rationals, Python ints as Int/Nat,
Python strings as lists of characters, and the sqlite tables as
association lists with the upsert semantics of the SQL statements.
Calls to the global random source (random.shuffle / random.sample) are
modelled as injected parameters constrained by permutation or
sub-permutation hypotheses, following the design note of the spec that
randomness should be an injected dependency.
-/

namespace HelpMeLearn

/-! ### Constants (learn.py lines 24-31) -/

def ADAPTIVE_AFTER_CYCLES : Nat := 5
def MIN_ATTEMPTS_FOR_ADAPTIVE : Nat := 25
def HIGH_ACCURACY_THRESHOLD : ℚ := 88/100
def NUMBER_CYCLE_SIZE : Nat := 20

/-! ### Text normalization (learn.py, normalize_text, lines 79-93)

A Python str is modelled as a list of characters.  str.strip(), str.split()
and str.lower() act on the whitespace characters and the alphabet this
program uses; the umlaut and sharp-s replacements are single-character
patterns, so str.replace becomes a character-wise expansion. -/

abbrev PyStr := List Char

/-- Whitespace recognised by str.strip / str.split. -/
def isPySpace (c : Char) : Bool :=
  c = ' ' || c = '\t' || c = '\n' || c = '\r' || c = '\x0b' || c = '\x0c'

/-- str.lower on one character, over the alphabet used by the repository
(ASCII letters and the German letters appearing in its data). -/
def pyLowerChar (c : Char) : Char :=
  if 'A' ≤ c && c ≤ 'Z' then Char.ofNat (c.toNat + 32)
  else if c = 'Ä' then 'ä'
  else if c = 'Ö' then 'ö'
  else if c = 'Ü' then 'ü'
  else c

/-- str.strip(): drop whitespace from both ends. -/
def pyStrip (s : PyStr) : PyStr :=
  ((s.dropWhile isPySpace).reverse.dropWhile isPySpace).reverse

/-- str.replace for a single-character pattern c replaced by r. -/
def pyReplace (s : PyStr) (c : Char) (r : PyStr) : PyStr :=
  s.flatMap (fun x => if x = c then r else [x])

/-- Helper for str.split(): accumulate the current word (reversed). -/
def pySplitAux : PyStr → PyStr → List PyStr
  | [], acc => if acc.isEmpty then [] else [acc.reverse]
  | c :: rest, acc =>
    if isPySpace c then
      if acc.isEmpty then pySplitAux rest [] else acc.reverse :: pySplitAux rest []
    else pySplitAux rest (c :: acc)

/-- str.split() with no argument: split on whitespace runs, no empty words. -/
def pySplit (s : PyStr) : List PyStr := pySplitAux s []

/-- " ".join(words). -/
def joinSpace : List PyStr → PyStr
  | [] => []
  | [w] => w
  | w :: ws => w ++ ' ' :: joinSpace ws

/-- learn.normalize_text: trim, lowercase, replace sharp s by ss, optionally
collapse whitespace runs to single spaces, optionally replace umlauts by
their two-letter fallbacks. -/
def normalize_text (value : PyStr) (allow_umlaut_fallback collapse_spaces : Bool) : PyStr :=
  let cleaned := pyReplace ((pyStrip value).map pyLowerChar) 'ß' ['s', 's']
  let cleaned := if collapse_spaces then joinSpace (pySplit cleaned) else cleaned
  if allow_umlaut_fallback then
    pyReplace (pyReplace (pyReplace cleaned 'ä' ['a', 'e']) 'ö' ['o', 'e']) 'ü' ['u', 'e']
  else cleaned

/-- learn.check_answers (lines 1679-1701): normalize both lists with the same
options and compare the resulting lists for equality. -/
def check_answers (user_answers solutions : List PyStr)
    (allow_umlaut_fallback collapse_spaces : Bool) : Bool :=
  decide (user_answers.map (fun v => normalize_text v allow_umlaut_fallback collapse_spaces)
    = solutions.map (fun v => normalize_text v allow_umlaut_fallback collapse_spaces))

/-! ### Per-domain answer-checking options (api.py submit_attempt) -/

inductive WordType where
  | noun
  | verb
  | number
  | family
deriving DecidableEq

/-- The answer check performed by api.submit_attempt per domain:
line 1608 (number: umlaut fallback on, spaces not collapsed),
line 1646 (family: umlaut fallback on, default collapse on),
line 1684 (generic noun/verb: default options, no umlaut fallback,
collapse on). -/
def submit_attempt_correct (word_type : WordType) (answers solutions : List PyStr) : Bool :=
  match word_type with
  | .number => check_answers answers solutions true false
  | .family => check_answers answers solutions true true
  | .noun => check_answers answers solutions false true
  | .verb => check_answers answers solutions false true

/-- Options table as the spec states it (spec section 4.3, per-domain fixed
policy): generic lexical items (false, collapsed), integer-valued items
(true, not collapsed), compound phrase items (true, collapsed). -/
def claimedOptions (word_type : WordType) : Bool × Bool :=
  match word_type with
  | .noun => (false, true)
  | .verb => (false, true)
  | .number => (true, false)
  | .family => (true, true)

/-! ### Difficulty scorer (learn.py, compute_difficulty, lines 879-900)

The last_seen column is a string; the computation branches on four
outcomes: the value is falsy (None or empty), datetime.fromisoformat
succeeds on a timezone-aware timestamp (giving a signed day delta),
fromisoformat succeeds on a timezone-naive timestamp (the subtraction
from datetime.now(timezone.utc) then raises TypeError, which the
except ValueError clause does not catch), or fromisoformat raises
ValueError. -/

inductive LastSeen where
  /-- last_seen is None or an empty string (falsy). -/
  | absent
  /-- fromisoformat succeeds with timezone information; deltaDays is
  (now minus last_seen) in days, possibly negative. -/
  | parsedAware (deltaDays : ℚ)
  /-- fromisoformat succeeds without timezone information. -/
  | parsedNaive
  /-- fromisoformat raises ValueError. -/
  | malformed
deriving DecidableEq

structure ItemSnapshot where
  attempts : Nat
  wrong : Nat
  streak : Nat
  reveals : Nat
  lastSeen : LastSeen
deriving DecidableEq

inductive PyError where
  /-- TypeError: subtracting an offset-naive datetime from an offset-aware one. -/
  | typeError
deriving DecidableEq

/-- learn.compute_difficulty.  Returns .error when the Python code raises an
uncaught exception. -/
def compute_difficulty (item : ItemSnapshot) : Except PyError ℚ :=
  if item.attempts = 0 then .ok 5
  else
    let accuracy : ℚ := ((item.attempts : ℚ) - (item.wrong : ℚ)) / (item.attempts : ℚ)
    let diff : ℚ := 1 + (1 - accuracy) * 4
    let diff := diff - (min item.streak 6 : ℚ) * (1/4)
    let diff := diff + (min item.reveals 5 : ℚ) * (3/20)
    match item.lastSeen with
    | .absent => .ok (max diff (1/10))
    | .parsedAware d => .ok (max (diff + min (max (d / 4) 0) 1) (1/10))
    | .parsedNaive => .error .typeError
    | .malformed => .ok (max (diff + 1/5) (1/10))

/-- Recency term exactly as the spec describes it (spec section 4.1):
clamp(days/4, 0, 1) when present and parseable, a flat 0.2 when
unparseable, nothing when absent. -/
def recencySpec : LastSeen → ℚ
  | .absent => 0
  | .parsedAware d => min (max (d / 4) 0) 1
  | .parsedNaive => 0
  | .malformed => 1/5

/-- Difficulty formula as the spec states it: 5.0 with no attempts,
otherwise max(0.1, 1 + (1 - accuracy)*4 - min(streak,6)*0.25
+ min(reveals,5)*0.15 + recency). -/
def difficultySpec (item : ItemSnapshot) : ℚ :=
  if item.attempts = 0 then 5
  else
    let accuracy : ℚ := ((item.attempts : ℚ) - (item.wrong : ℚ)) / (item.attempts : ℚ)
    max (1/10)
      (1 + (1 - accuracy) * 4 - (min item.streak 6 : ℚ) * (1/4)
        + (min item.reveals 5 : ℚ) * (3/20) + recencySpec item.lastSeen)

/-! ### Progress tracker state (learn.py, update_progress / update_number_progress)

The sqlite tables user_stats and number_stats are association lists keyed
by (user_id, entry key); the ON CONFLICT upsert either inserts a fresh row
or rewrites the matching row.  The append-only attempts audit tables are
not consumed by any algorithm of this core and are not modelled.  The
collection-scoped table variants repeat the same upsert with one more key
column and are covered by the same row-update function. -/

inductive ResultLabel where
  | correct
  | wrong
  | revealed
deriving DecidableEq

structure ItemStats where
  attempts : Nat
  correct : Nat
  wrong : Nat
  reveals : Nat
  correct_streak : Nat
  last_result : ResultLabel
  last_seen : Nat
deriving DecidableEq

/-- learn.is_anonymous_user (lines 75-76): user_id is None or non-positive. -/
abbrev UserId := Option Int

def is_anonymous_user (user_id : UserId) : Bool :=
  match user_id with
  | none => true
  | some v => decide (v ≤ 0)

/-- result_label = 'correct' if correct else ('revealed' if revealed else 'wrong'). -/
def result_label (correct revealed : Bool) : ResultLabel :=
  if correct then .correct else if revealed then .revealed else .wrong

/-- The row written by the INSERT ... ON CONFLICT DO UPDATE statement of
update_progress (learn.py lines 1760-1789): insert a fresh row on first
attempt, otherwise increment the counters, manage the streak from the new
result label, and stamp last_result and last_seen. -/
def upsertStatsRow (prior : Option ItemStats) (correct revealed : Bool) (now : Nat) :
    ItemStats :=
  let label := result_label correct revealed
  match prior with
  | none =>
      { attempts := 1
        correct := if correct then 1 else 0
        wrong := if correct then 0 else 1
        reveals := if revealed then 1 else 0
        correct_streak := if correct then 1 else 0
        last_result := label
        last_seen := now }
  | some s =>
      { attempts := s.attempts + 1
        correct := s.correct + (if correct then 1 else 0)
        wrong := s.wrong + (if correct then 0 else 1)
        reveals := s.reveals + (if revealed then 1 else 0)
        correct_streak := if label = .correct then s.correct_streak + 1 else 0
        last_result := label
        last_seen := now }

/-- api.submit_attempt line 1614: effective_correct = bool(correct and not revealed). -/
def effective_correct (rawCorrect revealed : Bool) : Bool :=
  rawCorrect && !revealed

abbrev StatsTable := List (Int × Int × ItemStats)

/-- One sqlite upsert on a table with unique key (user_id, entry key). -/
def tableUpsert (t : StatsTable) (u k : Int) (f : Option ItemStats → ItemStats) :
    StatsTable :=
  match t with
  | [] => [(u, k, f none)]
  | r :: rest =>
    if decide (r.1 = u) && decide (r.2.1 = k) then (u, k, f (some r.2.2)) :: rest
    else r :: tableUpsert rest u k f

structure DB where
  user_stats : StatsTable
  number_stats : StatsTable
  user_cycles : List (Int × WordType × Nat)
  number_cycles : List (Int × Nat)
deriving DecidableEq

def initDB : DB := ⟨[], [], [], []⟩

/-- learn.update_progress (lines 1743-1789, unscoped branch): a no-op for an
anonymous user, otherwise the atomic stats upsert. -/
def update_progress (db : DB) (user_id : UserId) (item_id : Int)
    (correct revealed : Bool) (now : Nat) : DB :=
  if is_anonymous_user user_id then db
  else match user_id with
    | some uid =>
      { db with user_stats :=
          tableUpsert db.user_stats uid item_id (fun p => upsertStatsRow p correct revealed now) }
    | none => db

/-- learn.update_number_progress (lines 1873-1934, unscoped branch): same
upsert against number_stats. -/
def update_number_progress (db : DB) (user_id : UserId) (number : Int)
    (correct revealed : Bool) (now : Nat) : DB :=
  if is_anonymous_user user_id then db
  else match user_id with
    | some uid =>
      { db with number_stats :=
          tableUpsert db.number_stats uid number (fun p => upsertStatsRow p correct revealed now) }
    | none => db

/-- SELECT cycles FROM user_cycles WHERE user_id = ? AND word_type = ?. -/
def cyclesLookup (t : List (Int × WordType × Nat)) (uid : Int) (wt : WordType) : Nat :=
  match t.find? (fun r => decide (r.1 = uid) && decide (r.2.1 = wt)) with
  | none => 0
  | some r => r.2.2

/-- UPDATE user_cycles SET cycles = n WHERE user_id = ? AND word_type = ?. -/
def cyclesUpdate (t : List (Int × WordType × Nat)) (uid : Int) (wt : WordType) (n : Nat) :
    List (Int × WordType × Nat) :=
  t.map (fun r => if decide (r.1 = uid) && decide (r.2.1 = wt) then (r.1, r.2.1, n) else r)

/-- learn.fetch_cycle_count (lines 903-925, unscoped branch): 0 for an
anonymous user, otherwise the stored count (0 when no row exists). -/
def fetch_cycle_count (db : DB) (user_id : UserId) (word_type : WordType) : Nat :=
  if is_anonymous_user user_id then 0
  else match user_id with
    | some uid => cyclesLookup db.user_cycles uid word_type
    | none => 0

/-- learn.increment_cycle (lines 928-954, unscoped branch): a no-op for an
anonymous user; INSERT a row at 1 when the count is 0, otherwise UPDATE to
count + 1. -/
def increment_cycle (db : DB) (user_id : UserId) (word_type : WordType) : DB :=
  if is_anonymous_user user_id then db
  else match user_id with
    | some uid =>
      let current := fetch_cycle_count db user_id word_type
      if current = 0 then { db with user_cycles := (uid, word_type, 1) :: db.user_cycles }
      else { db with user_cycles := cyclesUpdate db.user_cycles uid word_type (current + 1) }
    | none => db

/-- SELECT cycles FROM number_cycles WHERE user_id = ?. -/
def numberCyclesLookup (t : List (Int × Nat)) (uid : Int) : Nat :=
  match t.find? (fun r => decide (r.1 = uid)) with
  | none => 0
  | some r => r.2

def numberCyclesUpdate (t : List (Int × Nat)) (uid : Int) (n : Nat) : List (Int × Nat) :=
  t.map (fun r => if decide (r.1 = uid) then (r.1, n) else r)

/-- learn.fetch_number_cycle_count (lines 1019-1038, unscoped branch). -/
def fetch_number_cycle_count (db : DB) (user_id : UserId) : Nat :=
  if is_anonymous_user user_id then 0
  else match user_id with
    | some uid => numberCyclesLookup db.number_cycles uid
    | none => 0

/-- learn.increment_number_cycle (lines 1041-1083, unscoped branch). -/
def increment_number_cycle (db : DB) (user_id : UserId) : DB :=
  if is_anonymous_user user_id then db
  else match user_id with
    | some uid =>
      let current := fetch_number_cycle_count db user_id
      if current = 0 then { db with number_cycles := (uid, 1) :: db.number_cycles }
      else { db with number_cycles := numberCyclesUpdate db.number_cycles uid (current + 1) }
    | none => db

/-- learn.global_accuracy (lines 976-1016, unscoped branch): sum attempts and
correct over the caller's user_stats rows whose item has the requested word
type (itemType plays the role of the JOIN on the items table); accuracy is
correct/attempts, 0.0 with no attempts.  The SQL comparison user_id = ?
never matches a NULL parameter. -/
def global_accuracy (db : DB) (itemType : Int → WordType) (user_id : UserId)
    (word_type : WordType) : Nat × ℚ :=
  let rows := db.user_stats.filter
    (fun r => decide (some r.1 = user_id) && decide (itemType r.2.1 = word_type))
  let att := (rows.map (fun r => r.2.2.attempts)).sum
  let corr := (rows.map (fun r => r.2.2.correct)).sum
  (att, if att = 0 then 0 else (corr : ℚ) / (att : ℚ))

/-- learn.global_number_accuracy (lines 1086-1113, unscoped branch). -/
def global_number_accuracy (db : DB) (user_id : UserId) : Nat × ℚ :=
  let rows := db.number_stats.filter (fun r => decide (some r.1 = user_id))
  let att := (rows.map (fun r => r.2.2.attempts)).sum
  let corr := (rows.map (fun r => r.2.2.correct)).sum
  (att, if att = 0 then 0 else (corr : ℚ) / (att : ℚ))

/-! ### Adaptivity policy (learn.py session_loop lines 2136-2141,
api.py start_cycle lines 1518-1534) -/

/-- adaptive = cycle_index > ADAPTIVE_AFTER_CYCLES or (total_attempts >=
MIN_ATTEMPTS_FOR_ADAPTIVE and accuracy >= HIGH_ACCURACY_THRESHOLD), where
cycle_index is the stored count plus one. -/
def adaptiveFlag (cycle_index total_attempts : Nat) (accuracy : ℚ) : Bool :=
  decide (cycle_index > ADAPTIVE_AFTER_CYCLES)
    || (decide (total_attempts ≥ MIN_ATTEMPTS_FOR_ADAPTIVE)
        && decide (accuracy ≥ HIGH_ACCURACY_THRESHOLD))

/-- The adaptive flag computed at the start of a generic-domain cycle
(api.start_cycle lines 1518-1534). -/
def start_cycle_adaptive (db : DB) (itemType : Int → WordType) (user_id : UserId)
    (word_type : WordType) : Bool :=
  let cycle_index := fetch_cycle_count db user_id word_type + 1
  let agg := global_accuracy db itemType user_id word_type
  adaptiveFlag cycle_index agg.1 agg.2

/-- The adaptive flag computed at the start of a number-domain cycle
(api.start_cycle lines 1412-1417). -/
def start_number_cycle_adaptive (db : DB) (user_id : UserId) : Bool :=
  let cycle_index := fetch_number_cycle_count db user_id + 1
  let agg := global_number_accuracy db user_id
  adaptiveFlag cycle_index agg.1 agg.2

/-! ### Event sequences over the store -/

inductive Event where
  | attemptWord (u : UserId) (item : Int) (correct revealed : Bool) (now : Nat)
  | attemptNumber (u : UserId) (number : Int) (correct revealed : Bool) (now : Nat)
  | cycleWord (u : UserId) (wt : WordType)
  | cycleNumber (u : UserId)

def applyEvent (db : DB) : Event → DB
  | .attemptWord u i c r n => update_progress db u i c r n
  | .attemptNumber u k c r n => update_number_progress db u k c r n
  | .cycleWord u wt => increment_cycle db u wt
  | .cycleNumber u => increment_number_cycle db u

def applyEvents (db : DB) (l : List Event) : DB := l.foldl applyEvent db

/-- The per-row invariant of the spec data model: attempts splits into
correct plus wrong, and the streak is 0 unless the last result was correct. -/
def statRowOK (s : ItemStats) : Prop :=
  s.attempts = s.correct + s.wrong ∧ (s.last_result ≠ .correct → s.correct_streak = 0)

def statsInvariant (db : DB) : Prop :=
  (∀ r ∈ db.user_stats, statRowOK r.2.2) ∧ (∀ r ∈ db.number_stats, statRowOK r.2.2)

/-- Every stored row belongs to a positive (non-anonymous) user key. -/
def usersPositive (db : DB) : Prop :=
  (∀ r ∈ db.user_stats, 0 < r.1) ∧ (∀ r ∈ db.number_stats, 0 < r.1)
    ∧ (∀ r ∈ db.user_cycles, 0 < r.1) ∧ (∀ r ∈ db.number_cycles, 0 < r.1)

/-! ### Unbounded cycle composer (learn.py, choose_cycle_items, lines 1601-1625)

Items arrive as dicts carrying precomputed accuracy and difficulty.  The
initial random.shuffle is modelled by the parameter shuffled together with
a permutation hypothesis in the theorems; the random.sample over the easy
items is modelled by the parameter review_items, constrained to be a
sub-permutation of the easy items of the stated size.  Note that the
Python comprehension item not in hard_items selects exactly the items
failing the hard test, because the hard test is a function of the compared
dict fields. -/

structure CycleItem where
  id : Int
  attempts : Nat
  accuracy : ℚ
  streak : Nat
  difficulty : ℚ
deriving DecidableEq

/-- The two operations drawn from the global random source by
choose_cycle_items: random.shuffle (modelled as a function returning the
permuted list) and random.sample (modelled as a function of the sample
size and the pool).  The theorems constrain shuffle to return a
permutation and sample to return a sub-permutation of the requested
length. -/
structure ItemRng where
  shuffle : List CycleItem → List CycleItem
  sample : Nat → List CycleItem → List CycleItem

/-- The hard test of choose_cycle_items: attempts == 0 or accuracy below
HIGH_ACCURACY_THRESHOLD or streak below 3. -/
def isHardItem (i : CycleItem) : Bool :=
  decide (i.attempts = 0) || decide (i.accuracy < HIGH_ACCURACY_THRESHOLD)
    || decide (i.streak < 3)

/-- Final ordering of adaptive selections: difficulty descending. -/
def byDiffDesc (a b : CycleItem) : Prop := b.difficulty ≤ a.difficulty

instance : DecidableRel byDiffDesc :=
  fun a b => inferInstanceAs (Decidable (b.difficulty ≤ a.difficulty))

instance : IsTotal CycleItem byDiffDesc := ⟨fun a b => le_total b.difficulty a.difficulty⟩

instance : IsTrans CycleItem byDiffDesc := ⟨fun _ _ _ h₁ h₂ => le_trans h₂ h₁⟩

/-- learn.choose_cycle_items: empty input gives an empty cycle; the
non-adaptive branch returns the shuffled candidates whole; the adaptive
branch keeps every hard item plus review_items, a random sample of
min(easy count, max(1, int(len(items) * EASY_REVIEW_FRACTION))) easy
items (EASY_REVIEW_FRACTION = 0.25, whose exact float product truncates
to len / 4), and sorts the selection by difficulty descending (a stable
sort, like Python's).  The comprehension for easy_items keeps the items
failing the hard test, as explained above. -/
def choose_cycle_items (items : List CycleItem) (rng : ItemRng) (adaptive : Bool) :
    List CycleItem :=
  if items = [] then []
  else
    let shuffled := rng.shuffle items
    if adaptive = false then shuffled
    else
      let hard_items := shuffled.filter isHardItem
      let easy_items := shuffled.filter (fun i => !isHardItem i)
      let keep_easy := max 1 (items.length / 4)
      let review_items := rng.sample (min easy_items.length keep_easy) easy_items
      List.insertionSort byDiffDesc (hard_items ++ review_items)

/-! ### Bounded-exact cycle composer
(learn.py, choose_number_cycle_numbers, lines 1200-1251) -/

/-- learn.number_component (lines 215-224). -/
def number_component (value : Int) : String :=
  if value ≤ 12 then "basic"
  else if value ≤ 19 then "teens"
  else if value < 100 then (if value % 10 = 0 then "tens" else "composite_tens")
  else if value < 1000 then (if value % 100 = 0 then "hundreds" else "composite_hundreds")
  else (if value % 1000 = 0 then "thousands" else "composite_thousands")

/-- The per-number stats fields read by the composer. -/
structure NumberStat where
  attempts : Nat
  wrong : Nat
  streak : Nat
deriving DecidableEq

/-- The hard test of choose_number_cycle_numbers (lines 1228-1237): a
missing row counts as zero attempts; accuracy is (attempts - wrong) /
attempts, 0.0 with no attempts. -/
def isHardNumber (stats : Option NumberStat) : Bool :=
  let attempts := (stats.map (·.attempts)).getD 0
  let wrong := (stats.map (·.wrong)).getD 0
  let streak := (stats.map (·.streak)).getD 0
  let accuracy : ℚ :=
    if attempts = 0 then 0 else ((attempts : ℚ) - (wrong : ℚ)) / (attempts : ℚ)
  decide (attempts = 0) || decide (accuracy < HIGH_ACCURACY_THRESHOLD)
    || decide (streak < 3)

/-- Candidate numbers 0..max_number, optionally filtered to the requested
magnitude components (lines 1207-1212; a falsy components value applies no
filter). -/
def candidateNumbers (max_number : Int) (components : Option (List String)) : List Int :=
  if max_number < 0 then []
  else
    let numbers := (List.range (max_number.toNat + 1)).map Int.ofNat
    match components with
    | some comps =>
      if comps.isEmpty then numbers
      else numbers.filter (fun n => comps.contains (number_component n))
    | none => numbers

/-- cycle_size defaulting (lines 1216-1217): None or non-positive means
NUMBER_CYCLE_SIZE. -/
def cycleSizeValue (cycle_size : Option Int) : Nat :=
  match cycle_size with
  | none => NUMBER_CYCLE_SIZE
  | some c => if c ≤ 0 then NUMBER_CYCLE_SIZE else c.toNat

/-- target_size = min(cycle_size, total candidate count) (line 1218). -/
def numberTargetSize (max_number : Int) (cycle_size : Option Int)
    (components : Option (List String)) : Nat :=
  min (cycleSizeValue cycle_size) (candidateNumbers max_number components).length

def hardNumbers (max_number : Int) (components : Option (List String))
    (stats_map : Int → Option NumberStat) : List Int :=
  (candidateNumbers max_number components).filter (fun n => isHardNumber (stats_map n))

def easyNumbers (max_number : Int) (components : Option (List String))
    (stats_map : Int → Option NumberStat) : List Int :=
  (candidateNumbers max_number components).filter (fun n => !isHardNumber (stats_map n))

/-- The calls to the global random source inside
choose_number_cycle_numbers, injected as functions: random.shuffle
(returning the permuted list) and random.sample (a function of the sample
size and the pool, used by the non-adaptive branch). -/
structure NumberRng where
  shuffle : List Int → List Int
  sample : Nat → List Int → List Int

/-- The quota-and-backfill step of choose_number_cycle_numbers (lines
1242-1248), applied to the already shuffled hard and easy pools.
easy_count models max(1, int(target_size * EASY_REVIEW_FRACTION)) with
EASY_REVIEW_FRACTION = 0.25, whose float product is exact and truncates to
target_size / 4; hard_count models max(0, target_size - easy_count)
through truncating Nat subtraction.  The conditional backfill is the
unconditional append of a take of the leftover pools, empty when the
selection is already full. -/
def quotaSelect (hard easy : List Int) (target_size : Nat) : List Int :=
  let easy_count := max 1 (target_size / 4)
  let hard_count := target_size - easy_count
  let selected := hard.take hard_count ++ easy.take easy_count
  let remaining_pool := hard.drop hard_count ++ easy.drop easy_count
  selected ++ remaining_pool.take (target_size - selected.length)

/-- learn.choose_number_cycle_numbers. -/
def choose_number_cycle_numbers (max_number : Int) (stats_map : Int → Option NumberStat)
    (adaptive : Bool) (cycle_size : Option Int) (components : Option (List String))
    (rng : NumberRng) : List Int :=
  let numbers := candidateNumbers max_number components
  if numbers.length = 0 then []
  else
    let target_size := min (cycleSizeValue cycle_size) numbers.length
    if adaptive = false then
      if numbers.length ≤ target_size then rng.shuffle numbers
      else rng.sample target_size numbers
    else
      let hard := rng.shuffle (numbers.filter (fun n => isHardNumber (stats_map n)))
      let easy := rng.shuffle (numbers.filter (fun n => !isHardNumber (stats_map n)))
      rng.shuffle (quotaSelect hard easy target_size)

/-! ## Theorems -/

/-- C1: for every cycle start with stored cycle count c and global aggregate
(totalAttempts, accuracy) over the same domain and scope, the adaptive flag
is true exactly when (c + 1) > 5 or (totalAttempts >= 25 and accuracy >=
0.88); in particular c = 0 with totalAttempts = 0 gives false, and c = 5
gives true regardless of accuracy. -/
theorem adaptive_rule (c total_attempts : Nat) (accuracy : ℚ) :
    (adaptiveFlag (c + 1) total_attempts accuracy = true
      ↔ (5 < c + 1 ∨ (25 ≤ total_attempts ∧ (88/100 : ℚ) ≤ accuracy)))
    ∧ adaptiveFlag (0 + 1) 0 accuracy = false
    ∧ adaptiveFlag (5 + 1) total_attempts accuracy = true := by
  refine ⟨?_, ?_, ?_⟩
  · simp [adaptiveFlag, ADAPTIVE_AFTER_CYCLES, MIN_ATTEMPTS_FOR_ADAPTIVE,
      HIGH_ACCURACY_THRESHOLD]
  · simp [adaptiveFlag, ADAPTIVE_AFTER_CYCLES, MIN_ATTEMPTS_FOR_ADAPTIVE]
  · simp [adaptiveFlag, ADAPTIVE_AFTER_CYCLES]

/-- C3 (failing input): on an ItemStats snapshot whose last_seen is a
parseable timezone-naive timestamp, compute_difficulty parses it, then
subtracting the naive datetime from datetime.now(timezone.utc) raises
TypeError, which the except ValueError clause does not catch, so the
computation raises instead of returning a value. -/
theorem compute_difficulty_naive_timestamp_raises :
    compute_difficulty ⟨1, 0, 0, 0, .parsedNaive⟩ = .error .typeError := rfl

/-- C4: answer checking returns true exactly when the two lists, after the
same normalization of every element of both, are equal element-wise and
positionally, and lists of different lengths always yield a mismatch. -/
theorem check_answers_iff (user_answers solutions : List PyStr)
    (allow_umlaut_fallback collapse_spaces : Bool) :
    (check_answers user_answers solutions allow_umlaut_fallback collapse_spaces = true
      ↔ user_answers.map (fun v => normalize_text v allow_umlaut_fallback collapse_spaces)
        = solutions.map (fun v => normalize_text v allow_umlaut_fallback collapse_spaces))
    ∧ (user_answers.length ≠ solutions.length
      → check_answers user_answers solutions allow_umlaut_fallback collapse_spaces = false) := by
  constructor
  · simp [check_answers]
  · intro h
    simp only [check_answers, decide_eq_false_iff_not]
    intro hEq
    exact h (by simpa using congrArg List.length hEq)

/-- C4 witness: the characterization at a concrete pair of lists of unequal
length. -/
theorem check_answers_iff_wit :
    (check_answers [['a']] [['a'], ['b']] false true = true
      ↔ ([['a']] : List PyStr).map (fun v => normalize_text v false true)
        = ([['a'], ['b']] : List PyStr).map (fun v => normalize_text v false true))
    ∧ (([['a']] : List PyStr).length ≠ ([['a'], ['b']] : List PyStr).length
      → check_answers [['a']] [['a'], ['b']] false true = false) :=
  check_answers_iff [['a']] [['a'], ['b']] false true

/-- C5: the answer-checking options of submit_attempt are fixed per item
domain: generic lexical items use no umlaut fallback with spaces collapsed,
integer-valued items use the umlaut fallback with spaces not collapsed, and
compound phrase items use the umlaut fallback with spaces collapsed. -/
theorem submit_attempt_fixed_options (word_type : WordType)
    (answers solutions : List PyStr) :
    submit_attempt_correct word_type answers solutions
      = check_answers answers solutions (claimedOptions word_type).1
          (claimedOptions word_type).2 := by
  cases word_type <;> rfl

/-- C2: on every snapshot whose last_seen does not hit the timezone-naive
TypeError path (see C3), the difficulty scorer returns exactly 5 when
attempts = 0, and otherwise max(0.1, 1 + (1 - accuracy)*4
- min(streak,6)*0.25 + min(reveals,5)*0.15 + recency) with recency the
clamped day delta when present and parseable, a flat 0.2 when present but
unparseable, and 0 when absent; the result is always at least 0.1. -/
theorem compute_difficulty_formula (item : ItemSnapshot)
    (h : item.lastSeen ≠ LastSeen.parsedNaive) :
    compute_difficulty item = .ok (difficultySpec item)
      ∧ (1/10 : ℚ) ≤ difficultySpec item := by
  constructor
  · by_cases ha : item.attempts = 0
    · simp [compute_difficulty, difficultySpec, ha]
    · cases hls : item.lastSeen with
      | absent =>
        simp only [compute_difficulty, difficultySpec, ha, if_false, hls, recencySpec,
          Except.ok.injEq]
        rw [max_comm]
        ring_nf
      | parsedAware d =>
        simp only [compute_difficulty, difficultySpec, ha, if_false, hls, recencySpec,
          Except.ok.injEq]
        rw [max_comm]
      | parsedNaive => exact absurd hls h
      | malformed =>
        simp only [compute_difficulty, difficultySpec, ha, if_false, hls, recencySpec,
          Except.ok.injEq]
        rw [max_comm]
  · by_cases ha : item.attempts = 0
    · simp [difficultySpec, ha]
      norm_num
    · simp only [difficultySpec, ha, if_false]
      exact le_max_left _ _

/-- C2 witness: the formula at a concrete snapshot with a parseable
timezone-aware timestamp two days old. -/
theorem compute_difficulty_formula_wit :
    (⟨4, 1, 2, 1, .parsedAware 2⟩ : ItemSnapshot).lastSeen ≠ LastSeen.parsedNaive
      ∧ (compute_difficulty ⟨4, 1, 2, 1, .parsedAware 2⟩
          = .ok (difficultySpec ⟨4, 1, 2, 1, .parsedAware 2⟩)
        ∧ (1/10 : ℚ) ≤ difficultySpec ⟨4, 1, 2, 1, .parsedAware 2⟩) :=
  ⟨by decide, compute_difficulty_formula ⟨4, 1, 2, 1, .parsedAware 2⟩ (by decide)⟩

/-- C2 counterexample: at a snapshot with one attempt whose last_seen is a
parseable timezone-naive timestamp, the scorer does not return the claimed
value at all: the computation raises TypeError instead (see C3). -/
theorem compute_difficulty_formula_cex :
    compute_difficulty ⟨1, 0, 0, 0, .parsedNaive⟩
      ≠ .ok (difficultySpec ⟨1, 0, 0, 0, .parsedNaive⟩) := by
  intro hcontra
  exact Except.noConfusion hcontra

/-- C6: effective correctness is the raw check with a reveal forfeiting
credit, and a revealed attempt is always counted in the wrong bucket with
last_result = revealed and the streak reset to 0, whatever the raw result
was and whatever the prior row held. -/
theorem reveal_forfeits_credit (prior : Option ItemStats) (rawCorrect revealed : Bool)
    (now : Nat) :
    effective_correct rawCorrect revealed = (rawCorrect && !revealed)
    ∧ (revealed = true →
        (upsertStatsRow prior (effective_correct rawCorrect revealed) revealed now).correct
            = (prior.map (·.correct)).getD 0
          ∧ (upsertStatsRow prior (effective_correct rawCorrect revealed) revealed now).wrong
            = (prior.map (·.wrong)).getD 0 + 1
          ∧ (upsertStatsRow prior (effective_correct rawCorrect revealed) revealed
              now).last_result = ResultLabel.revealed
          ∧ (upsertStatsRow prior (effective_correct rawCorrect revealed) revealed
              now).correct_streak = 0) := by
  refine ⟨rfl, ?_⟩
  rintro rfl
  cases prior <;> cases rawCorrect <;>
    simp [upsertStatsRow, effective_correct, result_label]

/-- C6 witness: a revealed attempt on an existing row with a running streak,
with the raw answer matching. -/
theorem reveal_forfeits_credit_wit :
    (upsertStatsRow (some ⟨3, 2, 1, 0, 2, .correct, 5⟩)
        (effective_correct true true) true 7).correct
      = ((some (⟨3, 2, 1, 0, 2, .correct, 5⟩ : ItemStats)).map (·.correct)).getD 0
    ∧ (upsertStatsRow (some ⟨3, 2, 1, 0, 2, .correct, 5⟩)
        (effective_correct true true) true 7).wrong
      = ((some (⟨3, 2, 1, 0, 2, .correct, 5⟩ : ItemStats)).map (·.wrong)).getD 0 + 1
    ∧ (upsertStatsRow (some ⟨3, 2, 1, 0, 2, .correct, 5⟩)
        (effective_correct true true) true 7).last_result = ResultLabel.revealed
    ∧ (upsertStatsRow (some ⟨3, 2, 1, 0, 2, .correct, 5⟩)
        (effective_correct true true) true 7).correct_streak = 0 :=
  (reveal_forfeits_credit (some ⟨3, 2, 1, 0, 2, .correct, 5⟩) true true 7).2 rfl

/-! ### Invariant preservation helpers -/

lemma upsertStatsRow_ok (p : Option ItemStats) (hp : ∀ s, p = some s → statRowOK s)
    (c r : Bool) (n : Nat) : statRowOK (upsertStatsRow p c r n) := by
  cases p with
  | none =>
    cases c <;> cases r <;> simp [upsertStatsRow, statRowOK, result_label]
  | some s =>
    have hs := (hp s rfl).1
    cases c <;> cases r <;>
      simp [upsertStatsRow, statRowOK, result_label] <;> omega

lemma tableUpsert_statRowOK (t : StatsTable) (u k : Int) (c r : Bool) (n : Nat)
    (hT : ∀ row ∈ t, statRowOK row.2.2) :
    ∀ row ∈ tableUpsert t u k (fun p => upsertStatsRow p c r n), statRowOK row.2.2 := by
  induction t with
  | nil =>
    intro row hrow
    simp only [tableUpsert, List.mem_singleton] at hrow
    subst hrow
    exact upsertStatsRow_ok none (by simp) c r n
  | cons hd tl ih =>
    intro row hrow
    simp only [tableUpsert] at hrow
    by_cases hkey : (decide (hd.1 = u) && decide (hd.2.1 = k)) = true
    · rw [if_pos hkey] at hrow
      rcases List.mem_cons.mp hrow with hnew | htl
      · subst hnew
        exact upsertStatsRow_ok (some hd.2.2)
          (fun s hs => Option.some.inj hs ▸ hT hd (List.mem_cons_self hd tl)) c r n
      · exact hT row (List.mem_cons_of_mem hd htl)
    · rw [if_neg hkey] at hrow
      rcases List.mem_cons.mp hrow with hhd | htl
      · subst hhd
        exact hT row (List.mem_cons_self row tl)
      · exact ih (fun q hq => hT q (List.mem_cons_of_mem hd hq)) row htl

lemma tableUpsert_userPos (t : StatsTable) (u k : Int) (f : Option ItemStats → ItemStats)
    (hu : 0 < u) (hT : ∀ row ∈ t, 0 < row.1) :
    ∀ row ∈ tableUpsert t u k f, 0 < row.1 := by
  induction t with
  | nil =>
    intro row hrow
    simp only [tableUpsert, List.mem_singleton] at hrow
    subst hrow
    exact hu
  | cons hd tl ih =>
    intro row hrow
    simp only [tableUpsert] at hrow
    by_cases hkey : (decide (hd.1 = u) && decide (hd.2.1 = k)) = true
    · rw [if_pos hkey] at hrow
      rcases List.mem_cons.mp hrow with hnew | htl
      · subst hnew
        exact hu
      · exact hT row (List.mem_cons_of_mem hd htl)
    · rw [if_neg hkey] at hrow
      rcases List.mem_cons.mp hrow with hhd | htl
      · subst hhd
        exact hT row (List.mem_cons_self row tl)
      · exact ih (fun q hq => hT q (List.mem_cons_of_mem hd hq)) row htl

lemma cyclesUpdate_userPos (t : List (Int × WordType × Nat)) (uid : Int) (wt : WordType)
    (n : Nat) (hT : ∀ row ∈ t, 0 < row.1) :
    ∀ row ∈ cyclesUpdate t uid wt n, 0 < row.1 := by
  intro row hrow
  rcases List.mem_map.mp hrow with ⟨pre, hpre, heq⟩
  by_cases hkey : (decide (pre.1 = uid) && decide (pre.2.1 = wt)) = true
  · rw [if_pos hkey] at heq
    have : pre.1 = uid := by
      have := (Bool.and_eq_true _ _).mp hkey
      exact of_decide_eq_true this.1
    subst heq
    exact this ▸ hT pre hpre
  · rw [if_neg hkey] at heq
    exact heq ▸ hT pre hpre

lemma numberCyclesUpdate_userPos (t : List (Int × Nat)) (uid : Int) (n : Nat)
    (hT : ∀ row ∈ t, 0 < row.1) :
    ∀ row ∈ numberCyclesUpdate t uid n, 0 < row.1 := by
  intro row hrow
  rcases List.mem_map.mp hrow with ⟨pre, hpre, heq⟩
  by_cases hkey : decide (pre.1 = uid) = true
  · rw [if_pos hkey] at heq
    have : pre.1 = uid := of_decide_eq_true hkey
    subst heq
    exact this ▸ hT pre hpre
  · rw [if_neg hkey] at heq
    exact heq ▸ hT pre hpre

/-- Combined reachability invariant of the store. -/
def dbOK (db : DB) : Prop := statsInvariant db ∧ usersPositive db

lemma update_progress_anon (db : DB) (u : UserId) (i : Int) (c r : Bool) (n : Nat)
    (h : is_anonymous_user u = true) : update_progress db u i c r n = db := by
  simp [update_progress, h]

lemma update_number_progress_anon (db : DB) (u : UserId) (k : Int) (c r : Bool) (n : Nat)
    (h : is_anonymous_user u = true) : update_number_progress db u k c r n = db := by
  simp [update_number_progress, h]

lemma increment_cycle_anon (db : DB) (u : UserId) (wt : WordType)
    (h : is_anonymous_user u = true) : increment_cycle db u wt = db := by
  simp [increment_cycle, h]

lemma increment_number_cycle_anon (db : DB) (u : UserId)
    (h : is_anonymous_user u = true) : increment_number_cycle db u = db := by
  simp [increment_number_cycle, h]

lemma fetch_cycle_count_anon (db : DB) (u : UserId) (wt : WordType)
    (h : is_anonymous_user u = true) : fetch_cycle_count db u wt = 0 := by
  simp [fetch_cycle_count, h]

lemma fetch_number_cycle_count_anon (db : DB) (u : UserId)
    (h : is_anonymous_user u = true) : fetch_number_cycle_count db u = 0 := by
  simp [fetch_number_cycle_count, h]

lemma update_progress_pos (db : DB) (uid : Int) (hneg : ¬uid ≤ 0) (i : Int)
    (c r : Bool) (n : Nat) :
    update_progress db (some uid) i c r n
      = { db with user_stats :=
            tableUpsert db.user_stats uid i (fun p => upsertStatsRow p c r n) } := by
  simp [update_progress, is_anonymous_user, hneg]

lemma update_number_progress_pos (db : DB) (uid : Int) (hneg : ¬uid ≤ 0) (k : Int)
    (c r : Bool) (n : Nat) :
    update_number_progress db (some uid) k c r n
      = { db with number_stats :=
            tableUpsert db.number_stats uid k (fun p => upsertStatsRow p c r n) } := by
  simp [update_number_progress, is_anonymous_user, hneg]

lemma applyEvent_ok (db : DB) (e : Event) (h : dbOK db) : dbOK (applyEvent db e) := by
  obtain ⟨⟨hs1, hs2⟩, hp1, hp2, hp3, hp4⟩ := h
  cases e with
  | attemptWord u i c r n =>
    show dbOK (update_progress db u i c r n)
    by_cases ha : is_anonymous_user u = true
    · rw [update_progress_anon db u i c r n ha]
      exact ⟨⟨hs1, hs2⟩, hp1, hp2, hp3, hp4⟩
    · cases u with
      | none => simp [is_anonymous_user] at ha
      | some uid =>
        have hneg : ¬uid ≤ 0 := by simpa [is_anonymous_user] using ha
        rw [update_progress_pos db uid hneg i c r n]
        exact ⟨⟨tableUpsert_statRowOK db.user_stats uid i c r n hs1, hs2⟩,
          tableUpsert_userPos db.user_stats uid i _ (by omega) hp1, hp2, hp3, hp4⟩
  | attemptNumber u k c r n =>
    show dbOK (update_number_progress db u k c r n)
    by_cases ha : is_anonymous_user u = true
    · rw [update_number_progress_anon db u k c r n ha]
      exact ⟨⟨hs1, hs2⟩, hp1, hp2, hp3, hp4⟩
    · cases u with
      | none => simp [is_anonymous_user] at ha
      | some uid =>
        have hneg : ¬uid ≤ 0 := by simpa [is_anonymous_user] using ha
        rw [update_number_progress_pos db uid hneg k c r n]
        exact ⟨⟨hs1, tableUpsert_statRowOK db.number_stats uid k c r n hs2⟩,
          hp1, tableUpsert_userPos db.number_stats uid k _ (by omega) hp2, hp3, hp4⟩
  | cycleWord u wt =>
    show dbOK (increment_cycle db u wt)
    by_cases ha : is_anonymous_user u = true
    · rw [increment_cycle_anon db u wt ha]
      exact ⟨⟨hs1, hs2⟩, hp1, hp2, hp3, hp4⟩
    · cases u with
      | none => simp [is_anonymous_user] at ha
      | some uid =>
        have hneg : ¬uid ≤ 0 := by simpa [is_anonymous_user] using ha
        have hcyc : ∀ row ∈ (increment_cycle db (some uid) wt).user_cycles, 0 < row.1 := by
          unfold increment_cycle
          simp only [is_anonymous_user, decide_eq_true_eq, hneg, if_false]
          by_cases hcur : fetch_cycle_count db (some uid) wt = 0
          · simp only [hcur, if_pos]
            intro row hrow
            rcases List.mem_cons.mp hrow with hnew | hold
            · subst hnew
              omega
            · exact hp3 row hold
          · simp only [hcur, if_false]
            exact cyclesUpdate_userPos db.user_cycles uid wt _ hp3
        have hrest : (increment_cycle db (some uid) wt).user_stats = db.user_stats
            ∧ (increment_cycle db (some uid) wt).number_stats = db.number_stats
            ∧ (increment_cycle db (some uid) wt).number_cycles = db.number_cycles := by
          unfold increment_cycle
          simp only [is_anonymous_user, decide_eq_true_eq, hneg, if_false]
          by_cases hcur : fetch_cycle_count db (some uid) wt = 0 <;> simp [hcur]
        exact ⟨⟨hrest.1 ▸ hs1, hrest.2.1 ▸ hs2⟩,
          hrest.1 ▸ hp1, hrest.2.1 ▸ hp2, hcyc, hrest.2.2 ▸ hp4⟩
  | cycleNumber u =>
    show dbOK (increment_number_cycle db u)
    by_cases ha : is_anonymous_user u = true
    · rw [increment_number_cycle_anon db u ha]
      exact ⟨⟨hs1, hs2⟩, hp1, hp2, hp3, hp4⟩
    · cases u with
      | none => simp [is_anonymous_user] at ha
      | some uid =>
        have hneg : ¬uid ≤ 0 := by simpa [is_anonymous_user] using ha
        have hcyc : ∀ row ∈ (increment_number_cycle db (some uid)).number_cycles,
            0 < row.1 := by
          unfold increment_number_cycle
          simp only [is_anonymous_user, decide_eq_true_eq, hneg, if_false]
          by_cases hcur : fetch_number_cycle_count db (some uid) = 0
          · simp only [hcur, if_pos]
            intro row hrow
            rcases List.mem_cons.mp hrow with hnew | hold
            · subst hnew
              omega
            · exact hp4 row hold
          · simp only [hcur, if_false]
            exact numberCyclesUpdate_userPos db.number_cycles uid _ hp4
        have hrest : (increment_number_cycle db (some uid)).user_stats = db.user_stats
            ∧ (increment_number_cycle db (some uid)).number_stats = db.number_stats
            ∧ (increment_number_cycle db (some uid)).user_cycles = db.user_cycles := by
          unfold increment_number_cycle
          simp only [is_anonymous_user, decide_eq_true_eq, hneg, if_false]
          by_cases hcur : fetch_number_cycle_count db (some uid) = 0 <;> simp [hcur]
        exact ⟨⟨hrest.1 ▸ hs1, hrest.2.1 ▸ hs2⟩,
          hrest.1 ▸ hp1, hrest.2.1 ▸ hp2, hrest.2.2 ▸ hp3, hcyc⟩

lemma applyEvents_ok (l : List Event) : ∀ db, dbOK db → dbOK (applyEvents db l) := by
  induction l with
  | nil => intro db h; exact h
  | cons e t ih =>
    intro db h
    have : applyEvents db (e :: t) = applyEvents (applyEvent db e) t := rfl
    rw [this]
    exact ih _ (applyEvent_ok db e h)

lemma initDB_ok : dbOK initDB := by
  refine ⟨⟨?_, ?_⟩, ?_, ?_, ?_, ?_⟩ <;> simp [initDB]

/-- C7: starting from the empty store, after every finite sequence of
progress-tracker updates every stored stats row satisfies attempts =
correct + wrong, and the streak is 0 whenever the last result was not
correct; each single update adds exactly 1 to attempts and exactly 1 to
exactly one of correct or wrong. -/
theorem progress_tracker_invariant (l : List Event) :
    statsInvariant (applyEvents initDB l)
    ∧ ∀ (prior : Option ItemStats) (c r : Bool) (n : Nat),
        (upsertStatsRow prior c r n).attempts = (prior.map (·.attempts)).getD 0 + 1
        ∧ ((upsertStatsRow prior c r n).correct = (prior.map (·.correct)).getD 0 + 1
              ∧ (upsertStatsRow prior c r n).wrong = (prior.map (·.wrong)).getD 0
            ∨ (upsertStatsRow prior c r n).correct = (prior.map (·.correct)).getD 0
              ∧ (upsertStatsRow prior c r n).wrong = (prior.map (·.wrong)).getD 0 + 1) := by
  refine ⟨(applyEvents_ok l initDB initDB_ok).1, ?_⟩
  intro prior c r n
  cases prior <;> cases c <;> simp [upsertStatsRow]

lemma global_accuracy_anon (db : DB) (itemType : Int → WordType) (u : UserId)
    (wt : WordType) (hpos : ∀ r ∈ db.user_stats, 0 < r.1)
    (ha : is_anonymous_user u = true) :
    global_accuracy db itemType u wt = (0, 0) := by
  have hfil : db.user_stats.filter
      (fun r => decide (some r.1 = u) && decide (itemType r.2.1 = wt)) = [] := by
    rw [List.filter_eq_nil_iff]
    intro r hr
    simp only [Bool.and_eq_true, decide_eq_true_eq, not_and]
    intro hu
    exfalso
    cases u with
    | none => exact Option.noConfusion hu
    | some v =>
      have h1 := hpos r hr
      have h2 : r.1 = v := Option.some.inj hu
      have h3 : v ≤ 0 := by simpa [is_anonymous_user] using ha
      omega
  simp [global_accuracy, hfil]

lemma global_number_accuracy_anon (db : DB) (u : UserId)
    (hpos : ∀ r ∈ db.number_stats, 0 < r.1) (ha : is_anonymous_user u = true) :
    global_number_accuracy db u = (0, 0) := by
  have hfil : db.number_stats.filter (fun r => decide (some r.1 = u)) = [] := by
    rw [List.filter_eq_nil_iff]
    intro r hr
    simp only [decide_eq_true_eq]
    intro hu
    cases u with
    | none => exact Option.noConfusion hu
    | some v =>
      have h1 := hpos r hr
      have h2 : r.1 = v := Option.some.inj hu
      have h3 : v ≤ 0 := by simpa [is_anonymous_user] using ha
      omega
  simp [global_number_accuracy, hfil]

/-- C8: for an anonymous caller (user key absent or non-positive), every
progress update and every cycle-counter increment leaves the store
untouched, cycle-count queries return 0, and the adaptive flag computed at
the start of any cycle over any reachable store is false, in the generic
and the number domain alike. -/
theorem anonymous_caller_frame (db : DB) (l : List Event) (itemType : Int → WordType)
    (u : UserId) (wt : WordType) (item : Int) (c r : Bool) (now : Nat)
    (h : is_anonymous_user u = true) :
    update_progress db u item c r now = db
    ∧ update_number_progress db u item c r now = db
    ∧ increment_cycle db u wt = db
    ∧ increment_number_cycle db u = db
    ∧ fetch_cycle_count db u wt = 0
    ∧ fetch_number_cycle_count db u = 0
    ∧ start_cycle_adaptive (applyEvents initDB l) itemType u wt = false
    ∧ start_number_cycle_adaptive (applyEvents initDB l) u = false := by
  have hdb := applyEvents_ok l initDB initDB_ok
  refine ⟨update_progress_anon db u item c r now h,
    update_number_progress_anon db u item c r now h,
    increment_cycle_anon db u wt h,
    increment_number_cycle_anon db u h,
    fetch_cycle_count_anon db u wt h,
    fetch_number_cycle_count_anon db u h, ?_, ?_⟩
  · unfold start_cycle_adaptive
    rw [fetch_cycle_count_anon _ u wt h,
      global_accuracy_anon _ itemType u wt hdb.2.1 h]
    simp [adaptiveFlag, ADAPTIVE_AFTER_CYCLES, MIN_ATTEMPTS_FOR_ADAPTIVE]
  · unfold start_number_cycle_adaptive
    rw [fetch_number_cycle_count_anon _ u h,
      global_number_accuracy_anon _ u hdb.2.2.1 h]
    simp [adaptiveFlag, ADAPTIVE_AFTER_CYCLES, MIN_ATTEMPTS_FOR_ADAPTIVE]

/-- C8 witness: the frame condition at the guest key 0 over the store
reached by one authenticated attempt. -/
theorem anonymous_caller_frame_wit :
    update_progress initDB (some 0) 3 true false 1 = initDB
    ∧ update_number_progress initDB (some 0) 3 true false 1 = initDB
    ∧ increment_cycle initDB (some 0) WordType.noun = initDB
    ∧ increment_number_cycle initDB (some 0) = initDB
    ∧ fetch_cycle_count initDB (some 0) WordType.noun = 0
    ∧ fetch_number_cycle_count initDB (some 0) = 0
    ∧ start_cycle_adaptive
        (applyEvents initDB [.attemptWord (some 7) 3 true false 1])
        (fun _ => WordType.noun) (some 0) WordType.noun = false
    ∧ start_number_cycle_adaptive
        (applyEvents initDB [.attemptWord (some 7) 3 true false 1]) (some 0) = false :=
  anonymous_caller_frame initDB [.attemptWord (some 7) 3 true false 1]
    (fun _ => WordType.noun) (some 0) WordType.noun 3 true false 1 (by decide)

/-! ### Unbounded composer correctness -/

lemma choose_cycle_items_nonadaptive_eq (items : List CycleItem) (rng : ItemRng)
    (hne : items ≠ []) :
    choose_cycle_items items rng false = rng.shuffle items := by
  simp [choose_cycle_items, hne]

lemma choose_cycle_items_adaptive_eq (items : List CycleItem) (rng : ItemRng)
    (hne : items ≠ []) :
    choose_cycle_items items rng true
      = List.insertionSort byDiffDesc
          ((rng.shuffle items).filter isHardItem
            ++ rng.sample
                (min ((rng.shuffle items).filter (fun i => !isHardItem i)).length
                  (max 1 (items.length / 4)))
                ((rng.shuffle items).filter (fun i => !isHardItem i))) := by
  simp [choose_cycle_items, hne]

/-- C9: with the random source constrained to produce permutations and
correctly sized samples, the unbounded composer in non-adaptive mode
returns a permutation of the whole candidate list; in adaptive mode it
returns every hard item (attempts = 0 or accuracy below 0.88 or streak
below 3) together with min(easy count, max(1, floor(candidate count / 4)))
easy items, sorted by difficulty descending. -/
theorem choose_cycle_items_spec (items : List CycleItem) (rng : ItemRng)
    (hne : items ≠ [])
    (hshuffle : ∀ l, (rng.shuffle l).Perm l)
    (hsample : ∀ k l, k ≤ l.length
      → (rng.sample k l).Subperm l ∧ (rng.sample k l).length = k) :
    ((choose_cycle_items items rng false).Perm items)
    ∧ (∀ x ∈ items, isHardItem x = true → x ∈ choose_cycle_items items rng true)
    ∧ (choose_cycle_items items rng true).countP isHardItem = items.countP isHardItem
    ∧ (choose_cycle_items items rng true).countP (fun i => !isHardItem i)
        = min (items.countP (fun i => !isHardItem i)) (max 1 (items.length / 4))
    ∧ (choose_cycle_items items rng true).Sorted byDiffDesc := by
  have hp : (rng.shuffle items).Perm items := hshuffle items
  set shuffled := rng.shuffle items with hsh
  set easy := shuffled.filter (fun i => !isHardItem i) with heasy
  set k := min easy.length (max 1 (items.length / 4)) with hk
  have hkle : k ≤ easy.length := min_le_left _ _
  obtain ⟨hsub, hlen⟩ := hsample k easy hkle
  set review := rng.sample k easy with hrev
  set hard := shuffled.filter isHardItem with hhard
  have hout : choose_cycle_items items rng true
      = List.insertionSort byDiffDesc (hard ++ review) :=
    choose_cycle_items_adaptive_eq items rng hne
  have hperm : (choose_cycle_items items rng true).Perm (hard ++ review) := by
    rw [hout]
    exact List.perm_insertionSort byDiffDesc (hard ++ review)
  have heasy_len : easy.length = items.countP (fun i => !isHardItem i) := by
    rw [heasy, ← List.countP_eq_length_filter]
    exact hp.countP_eq _
  refine ⟨?_, ?_, ?_, ?_, ?_⟩
  · rw [choose_cycle_items_nonadaptive_eq items rng hne]
    exact hp
  · intro x hx hhx
    have hxs : x ∈ shuffled := hp.mem_iff.mpr hx
    have hxh : x ∈ hard := List.mem_filter.mpr ⟨hxs, hhx⟩
    exact hperm.mem_iff.mpr (List.mem_append_left review hxh)
  · rw [hperm.countP_eq, List.countP_append]
    have h1 : hard.countP isHardItem = hard.length := by
      rw [List.countP_eq_length]
      intro a ha
      exact (List.mem_filter.mp ha).2
    have h2 : review.countP isHardItem = 0 := by
      rw [List.countP_eq_zero]
      intro a ha
      have : a ∈ easy := hsub.subset ha
      have := (List.mem_filter.mp this).2
      simp only [Bool.not_eq_true'] at this
      simp [this]
    rw [h1, h2, Nat.add_zero, hhard, ← List.countP_eq_length_filter]
    exact hp.countP_eq _
  · rw [hperm.countP_eq, List.countP_append]
    have h1 : hard.countP (fun i => !isHardItem i) = 0 := by
      rw [List.countP_eq_zero]
      intro a ha
      have := (List.mem_filter.mp ha).2
      simp [this]
    have h2 : review.countP (fun i => !isHardItem i) = review.length := by
      rw [List.countP_eq_length]
      intro a ha
      exact (List.mem_filter.mp (hsub.subset ha)).2
    rw [h1, h2, Nat.zero_add, hlen, hk, heasy_len]
  · rw [hout]
    exact List.sorted_insertionSort byDiffDesc (hard ++ review)

/-- A deterministic random source for concrete checks: the identity shuffle
and the take-a-prefix sample. -/
def idItemRng : ItemRng := ⟨fun l => l, fun k l => l.take k⟩

lemma idItemRng_shuffle : ∀ l, (idItemRng.shuffle l).Perm l := fun l => List.Perm.refl l

lemma idItemRng_sample : ∀ k (l : List CycleItem), k ≤ l.length
    → (idItemRng.sample k l).Subperm l ∧ (idItemRng.sample k l).length = k := by
  intro k l hk
  refine ⟨(List.take_sublist k l).subperm, ?_⟩
  show (l.take k).length = k
  rw [List.length_take]
  omega

/-- Two concrete candidates: one hard (never attempted), one easy. -/
def witItems : List CycleItem := [⟨1, 0, 0, 0, 5⟩, ⟨2, 10, 9/10, 5, 1⟩]

/-- C9 witness: the composer characterization at two concrete candidates
under the deterministic random source. -/
theorem choose_cycle_items_spec_wit :
    ((choose_cycle_items witItems idItemRng false).Perm witItems)
    ∧ (⟨1, 0, 0, 0, 5⟩ : CycleItem) ∈ choose_cycle_items witItems idItemRng true
    ∧ (choose_cycle_items witItems idItemRng true).countP isHardItem
        = witItems.countP isHardItem
    ∧ (choose_cycle_items witItems idItemRng true).countP (fun i => !isHardItem i)
        = min (witItems.countP (fun i => !isHardItem i)) (max 1 (witItems.length / 4))
    ∧ (choose_cycle_items witItems idItemRng true).Sorted byDiffDesc := by
  have h := choose_cycle_items_spec witItems idItemRng (by decide)
    idItemRng_shuffle idItemRng_sample
  exact ⟨h.1, h.2.1 ⟨1, 0, 0, 0, 5⟩ (by decide) (by decide), h.2.2.1,
    h.2.2.2.1, h.2.2.2.2⟩

/-! ### Bounded-exact composer correctness -/

lemma length_filter_add_length_filter_not (l : List Int) (p : Int → Bool) :
    (l.filter p).length + (l.filter (fun a => !p a)).length = l.length := by
  induction l with
  | nil => simp
  | cons a t ih =>
    by_cases h : p a <;> simp [List.filter_cons, h] <;> omega

lemma subperm_nodup {l m : List Int} (h : l.Subperm m) (hm : m.Nodup) : l.Nodup := by
  obtain ⟨u, hu, hsub⟩ := h
  exact hu.nodup_iff.mp (hsub.nodup hm)

lemma candidateNumbers_nodup (max_number : Int) (components : Option (List String)) :
    (candidateNumbers max_number components).Nodup := by
  have hbase : ((List.range (max_number.toNat + 1)).map Int.ofNat).Nodup :=
    (List.nodup_range _).map (fun _ _ h => Int.ofNat.inj h)
  unfold candidateNumbers
  by_cases h : max_number < 0
  · simp [h]
  · cases components with
    | none => simpa [h] using hbase
    | some comps =>
      by_cases hc : comps.isEmpty
      · simpa [h, hc] using hbase
      · simpa [h, hc] using hbase.filter _

/-- The quota-and-backfill pattern with abstract quota values, for
reasoning; quotaSelect instantiates it definitionally. -/
def quotaCoreList (H E : List Int) (t ec hc : Nat) : List Int :=
  (H.take hc ++ E.take ec)
    ++ (H.drop hc ++ E.drop ec).take (t - (H.take hc ++ E.take ec).length)

lemma quotaSelect_eq (H E : List Int) (t : Nat) :
    quotaSelect H E t = quotaCoreList H E t (max 1 (t / 4)) (t - max 1 (t / 4)) := rfl

lemma quotaCoreList_spec (p : Int → Bool) (base H E : List Int) (t ec hc : Nat)
    (hH : H.Perm (base.filter p)) (hE : E.Perm (base.filter (fun n => !p n)))
    (hbase : base.Nodup) (hhc : hc + ec = t) (ht2 : t ≤ base.length) :
    (quotaCoreList H E t ec hc).length = t
    ∧ (quotaCoreList H E t ec hc).Nodup
    ∧ (∀ x ∈ quotaCoreList H E t ec hc, x ∈ base)
    ∧ ((base.filter p).length ≤ hc →
        (∀ x ∈ base.filter p, x ∈ quotaCoreList H E t ec hc)
        ∧ (quotaCoreList H E t ec hc).countP (fun n => !p n)
            = t - (base.filter p).length) := by
  have ha := hH.length_eq
  have hb := hE.length_eq
  have hab := length_filter_add_length_filter_not base p
  have hlen : (quotaCoreList H E t ec hc).length = t := by
    unfold quotaCoreList
    simp only [List.length_append, List.length_take, List.length_drop]
    omega
  have hsubHE : (quotaCoreList H E t ec hc).Subperm (H ++ E) := by
    rw [← Multiset.coe_le]
    have hT : (((H.drop hc ++ E.drop ec).take
          (t - (H.take hc ++ E.take ec).length) : List Int) : Multiset Int)
        ≤ ((H.drop hc ++ E.drop ec : List Int) : Multiset Int) :=
      Multiset.coe_le.mpr (List.take_sublist _ _).subperm
    have h1 : ((H.take hc : List Int) : Multiset Int) + ((H.drop hc : List Int) : Multiset Int)
        = ((H : List Int) : Multiset Int) := by
      show ((H.take hc ++ H.drop hc : List Int) : Multiset Int) = _
      rw [List.take_append_drop]
    have h2 : ((E.take ec : List Int) : Multiset Int) + ((E.drop ec : List Int) : Multiset Int)
        = ((E : List Int) : Multiset Int) := by
      show ((E.take ec ++ E.drop ec : List Int) : Multiset Int) = _
      rw [List.take_append_drop]
    calc ((quotaCoreList H E t ec hc : List Int) : Multiset Int)
        = ((H.take hc ++ E.take ec : List Int) : Multiset Int)
          + (((H.drop hc ++ E.drop ec).take
              (t - (H.take hc ++ E.take ec).length) : List Int) : Multiset Int) := rfl
      _ ≤ ((H.take hc ++ E.take ec : List Int) : Multiset Int)
          + ((H.drop hc ++ E.drop ec : List Int) : Multiset Int) := add_le_add_left hT _
      _ = (((H.take hc : List Int) : Multiset Int) + ((H.drop hc : List Int) : Multiset Int))
          + (((E.take ec : List Int) : Multiset Int)
            + ((E.drop ec : List Int) : Multiset Int)) := by
          show (((H.take hc : List Int) : Multiset Int) + ((E.take ec : List Int) : Multiset Int))
            + (((H.drop hc : List Int) : Multiset Int)
              + ((E.drop ec : List Int) : Multiset Int)) = _
          abel
      _ = ((H ++ E : List Int) : Multiset Int) := by rw [h1, h2]; rfl
  have hHnd : H.Nodup := hH.nodup_iff.mpr (hbase.filter p)
  have hEnd : E.Nodup := hE.nodup_iff.mpr (hbase.filter _)
  have hdisj : H.Disjoint E := by
    intro x hx hxE
    have h1 := (List.mem_filter.mp (hH.subset hx)).2
    have h2 := (List.mem_filter.mp (hE.subset hxE)).2
    rw [h1] at h2
    simp at h2
  have hnd : (quotaCoreList H E t ec hc).Nodup :=
    subperm_nodup hsubHE (List.nodup_append.mpr ⟨hHnd, hEnd, hdisj⟩)
  have hmem : ∀ x ∈ quotaCoreList H E t ec hc, x ∈ base := by
    intro x hx
    rcases List.mem_append.mp (hsubHE.subset hx) with hxH | hxE
    · exact List.mem_of_mem_filter (hH.subset hxH)
    · exact List.mem_of_mem_filter (hE.subset hxE)
  refine ⟨hlen, hnd, hmem, ?_⟩
  intro hsmall
  have haH : H.length ≤ hc := by omega
  have hAeq : H.take hc = H := List.take_of_length_le haH
  have hdropH : H.drop hc = [] := List.drop_eq_nil_of_le haH
  constructor
  · intro x hx
    have hxH : x ∈ H := hH.mem_iff.mpr hx
    unfold quotaCoreList
    exact List.mem_append_left _ (List.mem_append_left _ (hAeq.symm ▸ hxH))
  · unfold quotaCoreList
    rw [List.countP_append, List.countP_append]
    have hcA : (H.take hc).countP (fun n => !p n) = 0 := by
      rw [List.countP_eq_zero]
      intro a haA
      have h1 := (List.mem_filter.mp (hH.subset (List.mem_of_mem_take haA))).2
      simp [h1]
    have hcB : (E.take ec).countP (fun n => !p n) = (E.take ec).length := by
      rw [List.countP_eq_length]
      intro a haB
      exact (List.mem_filter.mp (hE.subset (List.mem_of_mem_take haB))).2
    have hcT : ((H.drop hc ++ E.drop ec).take
          (t - (H.take hc ++ E.take ec).length)).countP (fun n => !p n)
        = ((H.drop hc ++ E.drop ec).take
            (t - (H.take hc ++ E.take ec).length)).length := by
      rw [List.countP_eq_length]
      intro a haT
      have haR : a ∈ H.drop hc ++ E.drop ec := List.mem_of_mem_take haT
      rw [hdropH, List.nil_append] at haR
      exact (List.mem_filter.mp (hE.subset (List.mem_of_mem_drop haR))).2
    rw [hcA, hcB, hcT]
    simp only [List.length_take, List.length_append, List.length_drop, hdropH,
      List.length_nil, hAeq]
    omega

/-- C10: with the random source constrained to produce permutations, the
bounded-exact composer in adaptive mode returns exactly
targetSize = min(cycleSize, candidate count) distinct candidate numbers;
whenever the hard pool fits inside the hard quota
targetSize - max(1, floor(targetSize/4)), the output contains every hard
number and exactly targetSize - |hard| easy numbers. -/
theorem choose_number_cycle_numbers_spec (max_number : Int)
    (stats_map : Int → Option NumberStat) (cycle_size : Option Int)
    (components : Option (List String)) (rng : NumberRng)
    (hshuffle : ∀ l, (rng.shuffle l).Perm l)
    (hne : candidateNumbers max_number components ≠ []) :
    (choose_number_cycle_numbers max_number stats_map true cycle_size components rng).length
        = numberTargetSize max_number cycle_size components
    ∧ (choose_number_cycle_numbers max_number stats_map true cycle_size components rng).Nodup
    ∧ (∀ x ∈ choose_number_cycle_numbers max_number stats_map true cycle_size components rng,
        x ∈ candidateNumbers max_number components)
    ∧ ((hardNumbers max_number components stats_map).length
          ≤ numberTargetSize max_number cycle_size components
            - max 1 (numberTargetSize max_number cycle_size components / 4) →
        (∀ x ∈ hardNumbers max_number components stats_map,
          x ∈ choose_number_cycle_numbers max_number stats_map true cycle_size components rng)
        ∧ (choose_number_cycle_numbers max_number stats_map true cycle_size components
              rng).countP (fun n => !isHardNumber (stats_map n))
          = numberTargetSize max_number cycle_size components
            - (hardNumbers max_number components stats_map).length) := by
  have hlenpos : 0 < (candidateNumbers max_number components).length :=
    List.length_pos.mpr hne
  have h0 : ¬((candidateNumbers max_number components).length = 0) := by omega
  have hcs : 1 ≤ cycleSizeValue cycle_size := by
    unfold cycleSizeValue
    cases cycle_size with
    | none => simp [NUMBER_CYCLE_SIZE]
    | some c =>
      by_cases hcle : c ≤ 0
      · simp [hcle, NUMBER_CYCLE_SIZE]
      · simp only [hcle, if_false]
        omega
  have hout : choose_number_cycle_numbers max_number stats_map true cycle_size components rng
      = rng.shuffle (quotaSelect
          (rng.shuffle ((candidateNumbers max_number components).filter
            (fun n => isHardNumber (stats_map n))))
          (rng.shuffle ((candidateNumbers max_number components).filter
            (fun n => !isHardNumber (stats_map n))))
          (min (cycleSizeValue cycle_size) (candidateNumbers max_number components).length)) := by
    unfold choose_number_cycle_numbers
    simp [h0]
  have htfin1 : 1 ≤ min (cycleSizeValue cycle_size)
      (candidateNumbers max_number components).length := by omega
  have hq := quotaCoreList_spec (fun n => isHardNumber (stats_map n))
    (candidateNumbers max_number components)
    (rng.shuffle ((candidateNumbers max_number components).filter
      (fun n => isHardNumber (stats_map n))))
    (rng.shuffle ((candidateNumbers max_number components).filter
      (fun n => !isHardNumber (stats_map n))))
    (min (cycleSizeValue cycle_size) (candidateNumbers max_number components).length)
    (max 1 (min (cycleSizeValue cycle_size)
      (candidateNumbers max_number components).length / 4))
    (min (cycleSizeValue cycle_size) (candidateNumbers max_number components).length
      - max 1 (min (cycleSizeValue cycle_size)
        (candidateNumbers max_number components).length / 4))
    (hshuffle _) (hshuffle _) (candidateNumbers_nodup max_number components)
    (by omega) (min_le_right _ _)
  have hfin := hshuffle (quotaSelect
    (rng.shuffle ((candidateNumbers max_number components).filter
      (fun n => isHardNumber (stats_map n))))
    (rng.shuffle ((candidateNumbers max_number components).filter
      (fun n => !isHardNumber (stats_map n))))
    (min (cycleSizeValue cycle_size) (candidateNumbers max_number components).length))
  rw [quotaSelect_eq] at hfin
  refine ⟨?_, ?_, ?_, ?_⟩
  · rw [hout, quotaSelect_eq]
    exact hfin.length_eq.trans hq.1
  · rw [hout, quotaSelect_eq]
    exact hfin.nodup_iff.mpr hq.2.1
  · intro x hx
    rw [hout, quotaSelect_eq] at hx
    exact hq.2.2.1 x (hfin.subset hx)
  · intro hsmall
    have hinner := hq.2.2.2 hsmall
    constructor
    · intro x hx
      rw [hout, quotaSelect_eq]
      exact hfin.mem_iff.mpr (hinner.1 x hx)
    · rw [hout, quotaSelect_eq, hfin.countP_eq]
      exact hinner.2

/-- A stats map with exactly the numbers 0..4 hard (never attempted) and
every other number easy (10 attempts, all correct, streak 5). -/
def witStats (n : Int) : Option NumberStat :=
  if n < 5 then none else some ⟨10, 0, 5⟩

/-- A deterministic random source over numbers: the identity shuffle and
the take-a-prefix sample. -/
def idNumberRng : NumberRng := ⟨fun l => l, fun k l => l.take k⟩

lemma witStats_hard_iff : ∀ n : Int, isHardNumber (witStats n) = decide (n < 5) := by
  intro n
  by_cases h : n < 5
  · simp [witStats, h, isHardNumber]
  · simp only [witStats, h, if_false]
    norm_num [isHardNumber, HIGH_ACCURACY_THRESHOLD]

lemma witHard_eq : hardNumbers 104 none witStats = [0, 1, 2, 3, 4] := by
  unfold hardNumbers
  rw [show (fun n => isHardNumber (witStats n)) = (fun n : Int => decide (n < 5)) from
    funext witStats_hard_iff]
  decide

/-- C10 witness: max_number 104 gives 105 candidates, 5 hard and 100 easy;
with the default cycle size the composer returns exactly 20 distinct
numbers, among them the hard number 3, and exactly 15 easy ones. -/
theorem choose_number_cycle_numbers_spec_wit :
    (choose_number_cycle_numbers 104 witStats true none none idNumberRng).length = 20
    ∧ (choose_number_cycle_numbers 104 witStats true none none idNumberRng).Nodup
    ∧ (3 : Int) ∈ choose_number_cycle_numbers 104 witStats true none none idNumberRng
    ∧ (choose_number_cycle_numbers 104 witStats true none none idNumberRng).countP
        (fun n => !isHardNumber (witStats n)) = 15 := by
  have h := choose_number_cycle_numbers_spec 104 witStats none none idNumberRng
    (fun l => List.Perm.refl l) (by decide)
  have hsmall : (hardNumbers 104 none witStats).length
      ≤ numberTargetSize 104 none none - max 1 (numberTargetSize 104 none none / 4) := by
    rw [witHard_eq]
    decide
  have hinner := h.2.2.2 hsmall
  refine ⟨?_, h.2.1, ?_, ?_⟩
  · rw [h.1]
    decide
  · exact hinner.1 3 (witHard_eq.symm ▸ (by decide : (3 : Int) ∈ [0, 1, 2, 3, 4]))
  · rw [hinner.2, witHard_eq]
    decide

end HelpMeLearn
